import Mathlib

/-!
Shallow embedding of the state-synchronization and scoped-history engine of
the D&D tracker server (`src/server.js`, second document: per-page history
version).  Pure functions model every handler touched by the claims:
`filterStateForPlayers`, `extractPageSnapshot`, `applyPageScopedRestore`,
the `update-state` / `update-character` handlers and the
`save-history-entry` / `request-undo` / `request-redo` handlers.
-/

namespace DndTracker

/-- JSON-like scalar values carried by character fields (the handlers never
inspect the values, only copy and compare them, so scalar payloads model
arbitrary JSON).  Deep copy by serialization
(`JSON.parse(JSON.stringify(v))`) is the identity on these. -/
inductive Val where
  | vint : Int → Val
  | vstr : String → Val
  | vbool : Bool → Val
deriving DecidableEq, Repr

/-- Lookup of a field on a JS object modelled as an association list
(first binding wins; real JS objects have unique keys). -/
def lookupF : List (String × Val) → String → Option Val
  | [], _ => none
  | (k', v) :: rest, k => if k' = k then some v else lookupF rest k

/-- JS property assignment `obj[k] = v`: replace the binding if the key is
present, otherwise append it. -/
def setF : List (String × Val) → String → Val → List (String × Val)
  | [], k, v => [(k, v)]
  | (k', v') :: rest, k, v =>
      if k' = k then (k, v) :: rest else (k', v') :: setF rest k v

/-- A character: stable `id`, a `type` discriminator (`"player"` or
`"monster"`), the optional `revealedToPlayers` flag (absent = `undefined`
in JS), and the page-ownable fields as a JS-object association list. -/
structure Character where
  id : String
  type : String
  revealedToPlayers : Option Bool
  fields : List (String × Val)
deriving DecidableEq, Repr

/-- The singleton combat state object. -/
structure CombatState where
  active : Bool
  currentTurn : Int
  round : Int
  playedThisRound : List Val
deriving DecidableEq, Repr

/-- One entry of a per-page history or redo stack.  `combatState` is
`none` exactly when the JS field is `null`. -/
structure HistoryEntry where
  characters : List Character
  combatState : Option CombatState
  description : String
  timestamp : Int
deriving DecidableEq, Repr

/-- The four pages of `gameState.history` / `gameState.redo`. -/
inductive Page where
  | combat
  | spells
  | monsters
  | inventory
deriving DecidableEq, Repr

/-- The four per-page stacks (`gameState.history` or `gameState.redo`). -/
structure Stacks where
  combat : List HistoryEntry
  spells : List HistoryEntry
  monsters : List HistoryEntry
  inventory : List HistoryEntry
deriving DecidableEq, Repr

def Stacks.get (st : Stacks) : Page → List HistoryEntry
  | Page.combat => st.combat
  | Page.spells => st.spells
  | Page.monsters => st.monsters
  | Page.inventory => st.inventory

def Stacks.set (st : Stacks) : Page → List HistoryEntry → Stacks
  | Page.combat, l => { st with combat := l }
  | Page.spells, l => { st with spells := l }
  | Page.monsters, l => { st with monsters := l }
  | Page.inventory, l => { st with inventory := l }

/-- The canonical document (`gameState`).  `combatState` is an `Option`
because JS code can assign `null` to it (a combat history entry whose
stored snapshot is `null` is written back verbatim on restore). -/
structure GameState where
  characters : List Character
  combatState : Option CombatState
  monsterDatabase : List Val
  history : Stacks
  redo : Stacks
deriving DecidableEq, Repr

def MAX_HISTORY : Nat := 20

/-- `PAGE_CHAR_FIELDS`: which character fields each page owns. -/
def PAGE_CHAR_FIELDS : Page → List String
  | Page.combat =>
      ["currentHp", "maxHp", "tempHp", "initiative", "effects", "deathSaves",
       "concentrationActive", "currentPower", "maxPower"]
  | Page.spells =>
      ["spellSlots", "abilities", "hitDice", "maxHitDice", "wizardSettings"]
  | Page.monsters => ["abilities"]
  | Page.inventory => ["inventory"]

/-- The page-name check done by `!page || !gameState.history[page]`:
only the four initialized keys are valid pages. -/
def parsePage (s : String) : Option Page :=
  if s = "combat" then some Page.combat
  else if s = "spells" then some Page.spells
  else if s = "monsters" then some Page.monsters
  else if s = "inventory" then some Page.inventory
  else none

/-- `clientModes.get(socket.id) || 'player'`: an absent (or empty, hence
falsy) registration defaults to `"player"`. -/
def getRole (mode : Option String) : String :=
  match mode with
  | none => "player"
  | some r => if r = "" then "player" else r

/-- The visibility test `char.type === 'player' || (char.type === 'monster'
&& char.revealedToPlayers)` (an absent flag is falsy). -/
def isVisibleToPlayers (c : Character) : Bool :=
  c.type == "player" || (c.type == "monster" && c.revealedToPlayers == some true)

/-- `filterCharactersForPlayers`. -/
def filterCharactersForPlayers (cs : List Character) : List Character :=
  cs.filter isVisibleToPlayers

/-- `filterStateForPlayers` (second server version): deep-copy the state,
filter the top-level character list, and empty the monsters-page history
and redo stacks.  The other pages' stacks pass through unchanged. -/
def filterStateForPlayers (state : GameState) : GameState :=
  { state with
    characters := state.characters.filter isVisibleToPlayers,
    history := { state.history with monsters := [] },
    redo := { state.redo with monsters := [] } }

/-- The per-character body of `extractPageSnapshot`: `id`, `type`, and a
deep copy of every owned field present on the character; for the monsters
page a non-monster is snapshotted as `id`/`type` only. -/
def extractChar (p : Page) (c : Character) : Character :=
  if p = Page.monsters ∧ c.type ≠ "monster" then
    { id := c.id, type := c.type, revealedToPlayers := none, fields := [] }
  else
    { id := c.id, type := c.type, revealedToPlayers := none,
      fields := (PAGE_CHAR_FIELDS p).filterMap
        (fun f => (lookupF c.fields f).map (fun v => (f, v))) }

/-- `extractPageSnapshot(page)` over the canonical character list. -/
def extractPageSnapshot (p : Page) (s : GameState) : List Character :=
  s.characters.map (extractChar p)

/-- `snapshotMap.get(id)`: the `Map` built by iterating `forEach` keeps the
last record with a given id. -/
def lastById : List Character → String → Option Character
  | [], _ => none
  | c :: rest, i =>
      match lastById rest i with
      | some x => some x
      | none => if c.id = i then some c else none

/-- `map.has(id)` for a `Map` keyed by character id. -/
def hasId : List Character → String → Bool
  | [], _ => false
  | c :: rest, i => c.id == i || hasId rest i

/-- One step of the field-merging loop of `applyPageScopedRestore`: if the
snapshot object defines the field, overwrite it (deep copy = identity),
otherwise leave the accumulator alone. -/
def mergeFieldStep (snapF : List (String × Val)) (fs : List (String × Val))
    (f : String) : List (String × Val) :=
  match lookupF snapF f with
  | some v => setF fs f v
  | none => fs

/-- The field-merging loop of `applyPageScopedRestore`: for each owned
field, if the snapshot character defines it, overwrite it on the current
character. -/
def mergeCharFields (fields : List String) (snap cur : Character) : Character :=
  { cur with fields := fields.foldl (mergeFieldStep snap.fields) cur.fields }

/-- The per-character step of the merge phase: characters absent from the
snapshot map are untouched, and on the monsters page non-monster
characters are skipped. -/
def restoreCharMerge (p : Page) (snapChars : List Character) (cur : Character) : Character :=
  match lastById snapChars cur.id with
  | none => cur
  | some sc =>
      if p = Page.monsters ∧ cur.type ≠ "monster" then cur
      else mergeCharFields (PAGE_CHAR_FIELDS p) sc cur

/-- `applyPageScopedRestore(page, snapshotChars, snapshotCombatState)`:
restore combat state (combat page only), merge owned fields into current
characters, and for the combat page reconcile the character list itself
(re-insert snapshot characters missing from the current list, drop current
characters missing from the snapshot). -/
def applyPageScopedRestore (p : Page) (snapChars : List Character)
    (snapCombat : Option CombatState) (s : GameState) : GameState :=
  let s0 := if p = Page.combat then { s with combatState := snapCombat } else s
  let merged := s0.characters.map (restoreCharMerge p snapChars)
  if p = Page.combat then
    let pushed := merged ++ snapChars.filter (fun sc => !(hasId merged sc.id))
    { s0 with characters := pushed.filter (fun c => hasId snapChars c.id) }
  else
    { s0 with characters := merged }

/-- The role-dependent payload of a `history-applied` broadcast: the
per-socket loop sends the full character list to DM sockets and the
player-filtered list to the rest. -/
structure HistoryBroadcast where
  page : Page
  description : String
  direction : String
  charsForDm : List Character
  charsForPlayers : List Character
  combatState : Option CombatState
deriving DecidableEq, Repr

/-- What a history handler produces: the new canonical state, an optional
`history-error` message sent to the requesting socket only, and an
optional `history-applied` broadcast sent to every socket. -/
structure HandlerResult where
  state : GameState
  errorToRequester : Option String
  broadcast : Option HistoryBroadcast
deriving DecidableEq, Repr

/-- The history entry pushed by the three history handlers: a page-scoped
snapshot of the current canonical state (`combatState` only for the combat
page, `null` otherwise). -/
def pageSnapshotEntry (p : Page) (s : GameState) (desc : String) (now : Int) :
    HistoryEntry :=
  { characters := extractPageSnapshot p s,
    combatState := if p = Page.combat then s.combatState else none,
    description := desc, timestamp := now }

/-- `stack.push(e)` followed by `if (stack.length > MAX_HISTORY) stack.shift()`. -/
def trimPush (h : List HistoryEntry) (e : HistoryEntry) : List HistoryEntry :=
  let h' := h ++ [e]
  if MAX_HISTORY < h'.length then h'.drop 1 else h'

def undoEmptyMsg : String :=
  "Nelze vrátit zpět - žádná historie změn na této stránce!"

def redoEmptyMsg : String :=
  "Nelze posunout dopředu - žádná historie na této stránce!"

/-- The `save-history-entry` handler: guard on page validity and (for the
monsters page) the DM role, push a scoped snapshot of the current state,
trim, and clear the page's redo stack.  It emits nothing. -/
def saveHistoryEntry (mode : Option String) (s : GameState) (page : String)
    (desc : Option String) (now : Int) : HandlerResult :=
  match parsePage page with
  | none => ⟨s, none, none⟩
  | some p =>
      if p = Page.monsters ∧ getRole mode ≠ "dm" then ⟨s, none, none⟩
      else
        ⟨{ s with
            history := s.history.set p
              (trimPush (s.history.get p) (pageSnapshotEntry p s (desc.getD "") now)),
            redo := s.redo.set p [] }, none, none⟩

/-- The `request-undo` handler. -/
def requestUndo (mode : Option String) (s : GameState) (page : String)
    (now : Int) : HandlerResult :=
  match parsePage page with
  | none => ⟨s, none, none⟩
  | some p =>
      if p = Page.monsters ∧ getRole mode ≠ "dm" then ⟨s, none, none⟩
      else
        match (s.history.get p).getLast? with
        | none => ⟨s, some undoEmptyMsg, none⟩
        | some prev =>
            let s1 : GameState :=
              { s with
                redo := s.redo.set p
                  (trimPush (s.redo.get p) (pageSnapshotEntry p s "Aktuální stav" now)),
                history := s.history.set p (s.history.get p).dropLast }
            let s2 := applyPageScopedRestore p prev.characters prev.combatState s1
            ⟨s2, none,
              some { page := p, description := prev.description, direction := "undo",
                     charsForDm := s2.characters,
                     charsForPlayers := filterCharactersForPlayers s2.characters,
                     combatState := s2.combatState }⟩

/-- The `request-redo` handler. -/
def requestRedo (mode : Option String) (s : GameState) (page : String)
    (now : Int) : HandlerResult :=
  match parsePage page with
  | none => ⟨s, none, none⟩
  | some p =>
      if p = Page.monsters ∧ getRole mode ≠ "dm" then ⟨s, none, none⟩
      else
        match (s.redo.get p).getLast? with
        | none => ⟨s, some redoEmptyMsg, none⟩
        | some nxt =>
            let s1 : GameState :=
              { s with
                history := s.history.set p
                  (trimPush (s.history.get p) (pageSnapshotEntry p s "Stav před redo" now)),
                redo := s.redo.set p (s.redo.get p).dropLast }
            let s2 := applyPageScopedRestore p nxt.characters nxt.combatState s1
            ⟨s2, none,
              some { page := p, description := nxt.description, direction := "redo",
                     charsForDm := s2.characters,
                     charsForPlayers := filterCharactersForPlayers s2.characters,
                     combatState := s2.combatState }⟩

/-- `findIndex(c => c.id === u.id)` followed by a replacement at that index
when found (the first match is replaced; no match leaves the list as it
was). -/
def replaceById : List Character → Character → List Character
  | [], _ => []
  | c :: rest, u => if c.id = u.id then u :: rest else c :: replaceById rest u

/-- The `update-state` handler (state effect only; the handler always ends
with a broadcast of the resulting state to the other sockets).  The DM
branch replaces list-valued parts wholesale; the player branch walks the
incoming character list and replaces by id only the entries whose *payload*
passes the visibility test, then accepts `combatState` as-is. -/
def updateState (mode : Option String) (s : GameState)
    (dataCharacters : Option (List Character)) (dataCombatState : Option CombatState)
    (dataMonsterDatabase : Option (List Val)) : GameState :=
  if getRole mode = "dm" then
    let s1 := match dataCharacters with
      | some cs => { s with characters := cs }
      | none => s
    let s2 := match dataCombatState with
      | some cb => { s1 with combatState := some cb }
      | none => s1
    match dataMonsterDatabase with
    | some m => { s2 with monsterDatabase := m }
    | none => s2
  else
    let s1 := match dataCharacters with
      | some cs =>
          { s with
            characters := cs.foldl
              (fun acc u => if isVisibleToPlayers u then replaceById acc u else acc)
              s.characters }
      | none => s
    match dataCombatState with
    | some cb => { s1 with combatState := some cb }
    | none => s1

/-- The `update-character` handler (state effect only): a `player` caller
whose *payload* is an unrevealed monster is blocked; otherwise the
character with the payload's id, if present, is replaced. -/
def updateCharacter (mode : Option String) (s : GameState) (u : Character) :
    GameState :=
  if getRole mode = "player" ∧ u.type = "monster" ∧ ¬(u.revealedToPlayers = some true)
  then s
  else { s with characters := replaceById s.characters u }

/-- The in-memory `gameState` literal at the top of the server file. -/
def initialGameState : GameState :=
  { characters := [],
    combatState := some { active := false, currentTurn := 0, round := 1,
                          playedThisRound := [] },
    monsterDatabase := [],
    history := ⟨[], [], [], []⟩,
    redo := ⟨[], [], [], []⟩ }

/-- One step of the history state machine, for the bounded-history claim. -/
inductive HistOp where
  | record (mode : Option String) (page : String) (desc : Option String) (now : Int)
  | undo (mode : Option String) (page : String) (now : Int)
  | redoStep (mode : Option String) (page : String) (now : Int)

def applyHistOp (s : GameState) : HistOp → GameState
  | HistOp.record m pg d t => (saveHistoryEntry m s pg d t).state
  | HistOp.undo m pg t => (requestUndo m s pg t).state
  | HistOp.redoStep m pg t => (requestRedo m s pg t).state

/-- A sequence of `save-history-entry` requests (description, timestamp). -/
def recordSeq (mode : Option String) (page : String) (s : GameState)
    (items : List (Option String × Int)) : GameState :=
  items.foldl (fun st it => (saveHistoryEntry mode st page it.1 it.2).state) s

/-! ### Association-list and merge lemmas -/

theorem lookupF_setF (fs : List (String × Val)) (k : String) (v : Val)
    (k' : String) :
    lookupF (setF fs k v) k' = if k = k' then some v else lookupF fs k' := by
  induction fs with
  | nil => simp [setF, lookupF]
  | cons hd tl ih =>
      obtain ⟨k₁, v₁⟩ := hd
      by_cases h₁ : k₁ = k
      · subst h₁
        by_cases h₂ : k₁ = k'
        · subst h₂; simp [setF, lookupF]
        · simp [setF, lookupF, h₂]
      · by_cases h₂ : k₁ = k'
        · subst h₂
          have : ¬ k = k₁ := fun h => h₁ h.symm
          simp [setF, lookupF, h₁, this]
        · simp [setF, lookupF, h₁, h₂, ih]

theorem lookupF_mergeFold_notMem (sf : List (String × Val)) (fl : List String)
    (fs : List (String × Val)) (k : String) (hk : k ∉ fl) :
    lookupF (fl.foldl (mergeFieldStep sf) fs) k = lookupF fs k := by
  induction fl generalizing fs with
  | nil => rfl
  | cons f tl ih =>
      have hk' : k ∉ tl := fun h => hk (List.mem_cons_of_mem _ h)
      have hfk : ¬ f = k := fun h => hk (h ▸ List.mem_cons_self f tl)
      rw [List.foldl_cons, ih _ hk']
      unfold mergeFieldStep
      cases lookupF sf f with
      | none => rfl
      | some v => rw [lookupF_setF]; simp [hfk]

theorem lookupF_mergeFold_mem (sf : List (String × Val)) (fl : List String)
    (fs : List (String × Val)) (k : String) (v : Val) (hk : k ∈ fl)
    (hv : lookupF sf k = some v) :
    lookupF (fl.foldl (mergeFieldStep sf) fs) k = some v := by
  induction fl generalizing fs with
  | nil => cases hk
  | cons f tl ih =>
      rw [List.foldl_cons]
      by_cases hmem : k ∈ tl
      · exact ih _ hmem
      · have hfk : f = k := by
          rcases List.mem_cons.mp hk with h | h
          · exact h.symm
          · exact absurd h hmem
        subst hfk
        rw [lookupF_mergeFold_notMem sf tl _ _ hmem]
        unfold mergeFieldStep
        rw [hv, lookupF_setF]
        simp

theorem lookupF_mergeFold_srcNone (sf : List (String × Val)) (fl : List String)
    (fs : List (String × Val)) (k : String) (hv : lookupF sf k = none) :
    lookupF (fl.foldl (mergeFieldStep sf) fs) k = lookupF fs k := by
  induction fl generalizing fs with
  | nil => rfl
  | cons f tl ih =>
      rw [List.foldl_cons, ih]
      unfold mergeFieldStep
      cases hf : lookupF sf f with
      | none => rfl
      | some v =>
          rw [lookupF_setF]
          by_cases hfk : f = k
          · subst hfk; rw [hf] at hv; cases hv
          · simp [hfk]

theorem mergeCharFields_id (fl : List String) (snap cur : Character) :
    (mergeCharFields fl snap cur).id = cur.id := rfl

theorem mergeCharFields_type (fl : List String) (snap cur : Character) :
    (mergeCharFields fl snap cur).type = cur.type := rfl

theorem mergeCharFields_revealed (fl : List String) (snap cur : Character) :
    (mergeCharFields fl snap cur).revealedToPlayers = cur.revealedToPlayers := rfl

theorem lookupF_mergeCharFields_mem (fl : List String) (snap cur : Character)
    (k : String) (v : Val) (hk : k ∈ fl) (hv : lookupF snap.fields k = some v) :
    lookupF (mergeCharFields fl snap cur).fields k = some v :=
  lookupF_mergeFold_mem _ _ _ _ _ hk hv

theorem lookupF_mergeCharFields_notMem (fl : List String) (snap cur : Character)
    (k : String) (hk : k ∉ fl) :
    lookupF (mergeCharFields fl snap cur).fields k = lookupF cur.fields k :=
  lookupF_mergeFold_notMem _ _ _ _ hk

theorem lookupF_mergeCharFields_srcNone (fl : List String) (snap cur : Character)
    (k : String) (hv : lookupF snap.fields k = none) :
    lookupF (mergeCharFields fl snap cur).fields k = lookupF cur.fields k :=
  lookupF_mergeFold_srcNone _ _ _ _ hv

/-! ### Extraction lemmas -/

theorem lookupF_filterMapLookup (cf : List (String × Val)) (l : List String)
    (k : String) :
    lookupF (l.filterMap (fun f => (lookupF cf f).map (fun v => (f, v)))) k
      = if k ∈ l then lookupF cf k else none := by
  induction l with
  | nil => simp [lookupF]
  | cons f tl ih =>
      by_cases hfk : f = k
      · subst hfk
        cases hf : lookupF cf f with
        | none => simp [List.filterMap_cons, hf, ih]
        | some v => simp [List.filterMap_cons, hf, lookupF]
      · have hkf : ¬ k = f := fun h => hfk h.symm
        cases hf : lookupF cf f with
        | none =>
            simp only [List.filterMap_cons, hf, Option.map_none']
            rw [ih]
            simp [List.mem_cons, hkf]
        | some v =>
            simp only [List.filterMap_cons, hf, Option.map_some']
            simp only [lookupF, hfk, if_false]
            rw [ih]
            simp [List.mem_cons, hkf]

theorem extractChar_id (p : Page) (c : Character) :
    (extractChar p c).id = c.id := by
  unfold extractChar; split <;> rfl

theorem extractChar_type (p : Page) (c : Character) :
    (extractChar p c).type = c.type := by
  unfold extractChar; split <;> rfl

theorem extractChar_revealed (p : Page) (c : Character) :
    (extractChar p c).revealedToPlayers = none := by
  unfold extractChar; split <;> rfl

theorem lookupF_extractChar (p : Page) (c : Character)
    (h : ¬ (p = Page.monsters ∧ c.type ≠ "monster")) (k : String) :
    lookupF (extractChar p c).fields k
      = if k ∈ PAGE_CHAR_FIELDS p then lookupF c.fields k else none := by
  unfold extractChar
  rw [if_neg h]
  exact lookupF_filterMapLookup _ _ _

theorem lookupF_extractChar_skip (p : Page) (c : Character)
    (h : p = Page.monsters ∧ c.type ≠ "monster") (k : String) :
    lookupF (extractChar p c).fields k = none := by
  unfold extractChar
  rw [if_pos h]
  rfl

/-! ### Lemmas about the id maps -/

theorem lastById_eq_none (cs : List Character) (i : String)
    (h : ∀ c ∈ cs, c.id ≠ i) : lastById cs i = none := by
  induction cs with
  | nil => rfl
  | cons c tl ih =>
      have htl : ∀ x ∈ tl, x.id ≠ i := fun x hx => h x (List.mem_cons_of_mem _ hx)
      have hc : c.id ≠ i := h c (List.mem_cons_self c tl)
      simp [lastById, ih htl, hc]

theorem hasId_iff (cs : List Character) (i : String) :
    hasId cs i = true ↔ ∃ c ∈ cs, c.id = i := by
  induction cs with
  | nil => simp [hasId]
  | cons c tl ih =>
      simp only [hasId, Bool.or_eq_true, beq_iff_eq, ih]
      constructor
      · rintro (h | ⟨x, hx, hxi⟩)
        · exact ⟨c, List.mem_cons_self c tl, h⟩
        · exact ⟨x, List.mem_cons_of_mem _ hx, hxi⟩
      · rintro ⟨x, hx, hxi⟩
        rcases List.mem_cons.mp hx with h | h
        · subst h; exact Or.inl hxi
        · exact Or.inr ⟨x, h, hxi⟩

theorem hasId_eq_false (cs : List Character) (i : String)
    (h : ∀ c ∈ cs, c.id ≠ i) : hasId cs i = false := by
  cases hb : hasId cs i with
  | false => rfl
  | true =>
      obtain ⟨c, hc, hci⟩ := (hasId_iff cs i).mp hb
      exact absurd hci (h c hc)

theorem hasId_map_preserving (g : Character → Character) (cs : List Character)
    (i : String) (hg : ∀ x, (g x).id = x.id) :
    hasId (cs.map g) i = hasId cs i := by
  induction cs with
  | nil => rfl
  | cons c tl ih => simp [hasId, ih, hg]

theorem lastById_map_of_nodup (g : Character → Character) (cs : List Character)
    (c : Character) (hg : ∀ x, (g x).id = x.id)
    (hnd : (cs.map (fun x => x.id)).Nodup) (hc : c ∈ cs) :
    lastById (cs.map g) c.id = some (g c) := by
  induction cs with
  | nil => cases hc
  | cons hd tl ih =>
      have hnd' : (tl.map (fun x => x.id)).Nodup := (List.nodup_cons.mp hnd).2
      rcases List.mem_cons.mp hc with h | h
      · subst h
        have hnotin : c.id ∉ tl.map (fun x => x.id) := (List.nodup_cons.mp hnd).1
        have hnone : lastById (tl.map g) c.id = none := by
          apply lastById_eq_none
          intro x hx hxid
          obtain ⟨y, hy, hyx⟩ := List.mem_map.mp hx
          apply hnotin
          exact List.mem_map.mpr ⟨y, hy, by rw [← hyx] at hxid; rw [← hxid, hg]⟩
        simp [lastById, hnone, hg]
      · have := ih hnd' h
        simp only [List.map_cons, lastById, this]

/-! ### Stack accessor lemmas -/

theorem Stacks.get_set_same (st : Stacks) (p : Page) (l : List HistoryEntry) :
    (st.set p l).get p = l := by
  cases p <;> rfl

theorem Stacks.get_set_other (st : Stacks) (p q : Page) (l : List HistoryEntry)
    (h : q ≠ p) : (st.set p l).get q = st.get q := by
  cases p <;> cases q <;> first | rfl | exact absurd rfl h

/-! ### trimPush lemmas -/

theorem trimPush_eq_drop (h0 : List HistoryEntry) (e : HistoryEntry)
    (h : h0.length ≤ MAX_HISTORY) :
    trimPush h0 e = (h0 ++ [e]).drop (h0.length + 1 - MAX_HISTORY) := by
  unfold trimPush
  simp only [List.length_append, List.length_singleton]
  by_cases hlt : MAX_HISTORY < h0.length + 1
  · have : h0.length + 1 - MAX_HISTORY = 1 := by
      unfold MAX_HISTORY at *; omega
    rw [if_pos hlt, this]
  · have : h0.length + 1 - MAX_HISTORY = 0 := by
      unfold MAX_HISTORY at *; omega
    rw [if_neg hlt, this, List.drop_zero]

theorem trimPush_length_le (h0 : List HistoryEntry) (e : HistoryEntry)
    (h : h0.length ≤ MAX_HISTORY) : (trimPush h0 e).length ≤ MAX_HISTORY := by
  rw [trimPush_eq_drop h0 e h]
  simp only [List.length_drop, List.length_append, List.length_singleton]
  unfold MAX_HISTORY at *; omega

theorem trimPush_getLast? (h0 : List HistoryEntry) (e : HistoryEntry) :
    (trimPush h0 e).getLast? = some e := by
  unfold trimPush
  by_cases hlt : MAX_HISTORY < (h0 ++ [e]).length
  · rw [if_pos hlt]
    cases h0 with
    | nil => simp at hlt; unfold MAX_HISTORY at hlt; omega
    | cons x t => simp [List.getLast?_concat]
  · rw [if_neg hlt]
    simp [List.getLast?_concat]

theorem trimPush_ne_nil (h0 : List HistoryEntry) (e : HistoryEntry) :
    trimPush h0 e ≠ [] := by
  intro h
  have := trimPush_getLast? h0 e
  rw [h] at this
  cases this

/-! ### Shape lemmas for the restore operation -/

theorem restoreCharMerge_id (p : Page) (a : List Character) (c : Character) :
    (restoreCharMerge p a c).id = c.id := by
  unfold restoreCharMerge
  cases lastById a c.id with
  | none => rfl
  | some sc => dsimp only; split <;> rfl

theorem restoreCharMerge_type (p : Page) (a : List Character) (c : Character) :
    (restoreCharMerge p a c).type = c.type := by
  unfold restoreCharMerge
  cases lastById a c.id with
  | none => rfl
  | some sc => dsimp only; split <;> rfl

theorem restoreCharMerge_revealed (p : Page) (a : List Character) (c : Character) :
    (restoreCharMerge p a c).revealedToPlayers = c.revealedToPlayers := by
  unfold restoreCharMerge
  cases lastById a c.id with
  | none => rfl
  | some sc => dsimp only; split <;> rfl

theorem restore_history (p : Page) (a : List Character) (b : Option CombatState)
    (s : GameState) : (applyPageScopedRestore p a b s).history = s.history := by
  by_cases hp : p = Page.combat <;> simp [applyPageScopedRestore, hp]

theorem restore_redo (p : Page) (a : List Character) (b : Option CombatState)
    (s : GameState) : (applyPageScopedRestore p a b s).redo = s.redo := by
  by_cases hp : p = Page.combat <;> simp [applyPageScopedRestore, hp]

theorem restore_combatState_other (p : Page) (a : List Character)
    (b : Option CombatState) (s : GameState) (hp : p ≠ Page.combat) :
    (applyPageScopedRestore p a b s).combatState = s.combatState := by
  simp [applyPageScopedRestore, hp]

theorem restore_combatState_combat (a : List Character) (b : Option CombatState)
    (s : GameState) :
    (applyPageScopedRestore Page.combat a b s).combatState = b := by
  simp [applyPageScopedRestore]

theorem restore_characters_other (p : Page) (a : List Character)
    (b : Option CombatState) (s : GameState) (hp : p ≠ Page.combat) :
    (applyPageScopedRestore p a b s).characters
      = s.characters.map (restoreCharMerge p a) := by
  simp [applyPageScopedRestore, hp]

theorem restore_characters_combat (a : List Character) (b : Option CombatState)
    (s : GameState) :
    (applyPageScopedRestore Page.combat a b s).characters
      = ((s.characters.map (restoreCharMerge Page.combat a))
          ++ a.filter (fun sc =>
              !(hasId (s.characters.map (restoreCharMerge Page.combat a)) sc.id))).filter
          (fun c => hasId a c.id) := by
  simp [applyPageScopedRestore]

/-! ### Claim C4: page field ownership -/

/-- Disjointness of two field-name lists. -/
def fieldsDisjointB (l1 l2 : List String) : Bool :=
  l1.all (fun f => !(l2.contains f))

/-- The claim's property: all six page pairs own disjoint field sets. -/
def pagesFieldsPairwiseDisjointB : Bool :=
  fieldsDisjointB (PAGE_CHAR_FIELDS Page.combat) (PAGE_CHAR_FIELDS Page.spells) &&
  fieldsDisjointB (PAGE_CHAR_FIELDS Page.combat) (PAGE_CHAR_FIELDS Page.monsters) &&
  fieldsDisjointB (PAGE_CHAR_FIELDS Page.combat) (PAGE_CHAR_FIELDS Page.inventory) &&
  fieldsDisjointB (PAGE_CHAR_FIELDS Page.spells) (PAGE_CHAR_FIELDS Page.monsters) &&
  fieldsDisjointB (PAGE_CHAR_FIELDS Page.spells) (PAGE_CHAR_FIELDS Page.inventory) &&
  fieldsDisjointB (PAGE_CHAR_FIELDS Page.monsters) (PAGE_CHAR_FIELDS Page.inventory)

/-- C4 counterexample: the field-ownership sets are not pairwise disjoint —
`"abilities"` is owned by both the spells page and the monsters page. -/
theorem C4_counterexample :
    pagesFieldsPairwiseDisjointB = false ∧
    "abilities" ∈ PAGE_CHAR_FIELDS Page.spells ∧
    "abilities" ∈ PAGE_CHAR_FIELDS Page.monsters := by decide

/-- C4 (amended): the field-ownership sets of the four pages are pairwise
disjoint except that spells and monsters share exactly the field
`"abilities"`; every pair involving combat or inventory is disjoint. -/
theorem C4_pageCharFields_disjoint_except_abilities :
    fieldsDisjointB (PAGE_CHAR_FIELDS Page.combat) (PAGE_CHAR_FIELDS Page.spells) = true ∧
    fieldsDisjointB (PAGE_CHAR_FIELDS Page.combat) (PAGE_CHAR_FIELDS Page.monsters) = true ∧
    fieldsDisjointB (PAGE_CHAR_FIELDS Page.combat) (PAGE_CHAR_FIELDS Page.inventory) = true ∧
    fieldsDisjointB (PAGE_CHAR_FIELDS Page.spells) (PAGE_CHAR_FIELDS Page.inventory) = true ∧
    fieldsDisjointB (PAGE_CHAR_FIELDS Page.monsters) (PAGE_CHAR_FIELDS Page.inventory) = true ∧
    (PAGE_CHAR_FIELDS Page.spells).filter
      (fun f => (PAGE_CHAR_FIELDS Page.monsters).contains f) = ["abilities"] ∧
    (PAGE_CHAR_FIELDS Page.monsters).filter
      (fun f => (PAGE_CHAR_FIELDS Page.spells).contains f) = ["abilities"] := by decide

/-! ### Claim C1: visibility of hidden monsters in the restricted projection -/

/-- A monster that is not revealed to players (an absent flag is falsy,
exactly the complement of the filter used by the code). -/
def hiddenMonsterB (c : Character) : Bool :=
  c.type == "monster" && !(c.revealedToPlayers == some true)

def entryNoHidden (e : HistoryEntry) : Bool :=
  e.characters.all (fun c => !(hiddenMonsterB c))

def stackNoHidden (l : List HistoryEntry) : Bool :=
  l.all entryNoHidden

/-- The claim's property over a projected state: no hidden monster in the
top-level character list nor inside any history/redo entry of any page. -/
def stateNoHidden (s : GameState) : Bool :=
  s.characters.all (fun c => !(hiddenMonsterB c)) &&
  stackNoHidden s.history.combat && stackNoHidden s.history.spells &&
  stackNoHidden s.history.monsters && stackNoHidden s.history.inventory &&
  stackNoHidden s.redo.combat && stackNoHidden s.redo.spells &&
  stackNoHidden s.redo.monsters && stackNoHidden s.redo.inventory

theorem visible_not_hidden (c : Character) (h : isVisibleToPlayers c = true) :
    hiddenMonsterB c = false := by
  unfold isVisibleToPlayers at h
  unfold hiddenMonsterB
  by_cases ht : c.type = "player"
  · rw [ht]
    simp
  · have hbeq : (c.type == "player") = false := by simpa using ht
    rw [hbeq, Bool.false_or] at h
    have h3 := ((Bool.and_eq_true _ _).mp h).2
    simp [h3]

/-- A state whose hidden monster also sits inside a combat-page history
entry. -/
def c1CexChar : Character :=
  { id := "m1", type := "monster", revealedToPlayers := some false,
    fields := [("currentHp", Val.vint 7)] }

def c1CexState : GameState :=
  { characters := [c1CexChar], combatState := none, monsterDatabase := [],
    history := ⟨[⟨[c1CexChar], none, "damage", 0⟩], [], [], []⟩,
    redo := ⟨[], [], [], []⟩ }

/-- C1 counterexample: the restricted projection of `c1CexState` still
contains a character with `type = monster` and `revealedToPlayers = false`
inside a combat-page history entry — `filterStateForPlayers` passes the
combat, spells and inventory stacks through unfiltered. -/
theorem C1_counterexample :
    stateNoHidden (filterStateForPlayers c1CexState) = false ∧
    (filterStateForPlayers c1CexState).history.combat.map
      (fun e => e.characters) = [[c1CexChar]] ∧
    hiddenMonsterB c1CexChar = true := by decide

/-- C1 (amended): the restricted projection removes every hidden monster
from the top-level character list and empties the monsters-page history
and redo stacks, but the combat, spells and inventory stacks (and the
characters inside their entries) are passed through unchanged, so hidden
monsters' scoped snapshots can still appear there. -/
theorem C1_filterStateForPlayers_scope (s : GameState) :
    (filterStateForPlayers s).characters.all (fun c => !(hiddenMonsterB c)) = true ∧
    (filterStateForPlayers s).history.monsters = [] ∧
    (filterStateForPlayers s).redo.monsters = [] ∧
    (filterStateForPlayers s).history.combat = s.history.combat ∧
    (filterStateForPlayers s).history.spells = s.history.spells ∧
    (filterStateForPlayers s).history.inventory = s.history.inventory ∧
    (filterStateForPlayers s).redo.combat = s.redo.combat ∧
    (filterStateForPlayers s).redo.spells = s.redo.spells ∧
    (filterStateForPlayers s).redo.inventory = s.redo.inventory := by
  refine ⟨?_, rfl, rfl, rfl, rfl, rfl, rfl, rfl, rfl⟩
  rw [List.all_eq_true]
  intro c hc
  have hvis : isVisibleToPlayers c = true := by
    have := List.mem_filter.mp hc
    exact this.2
  simp [visible_not_hidden c hvis]

/-! ### Claim C7: undo/redo on an empty stack -/

/-- C7: for every page, an undo request with an empty history stack (and a
redo request with an empty redo stack), once past the page/role guards,
sends a `history-error` to the requester only, leaves the whole game state
unchanged and broadcasts nothing. -/
theorem C7_emptyStack_error (mode : Option String) (s : GameState) (page : String)
    (p : Page) (now : Int) (hpage : parsePage page = some p)
    (hrole : p = Page.monsters → getRole mode = "dm") :
    (s.history.get p = [] →
      requestUndo mode s page now = ⟨s, some undoEmptyMsg, none⟩) ∧
    (s.redo.get p = [] →
      requestRedo mode s page now = ⟨s, some redoEmptyMsg, none⟩) := by
  have hguard : ¬ (p = Page.monsters ∧ getRole mode ≠ "dm") := by
    rintro ⟨hm, hr⟩
    exact hr (hrole hm)
  constructor
  · intro hemp
    unfold requestUndo
    rw [hpage]
    dsimp only
    rw [if_neg hguard, hemp]
    rfl
  · intro hemp
    unfold requestRedo
    rw [hpage]
    dsimp only
    rw [if_neg hguard, hemp]
    rfl

/-- C7 witness: at the initial state the combat-page undo and redo both
report the error and change nothing. -/
theorem C7_witness :
    requestUndo none initialGameState "combat" 0
      = ⟨initialGameState, some undoEmptyMsg, none⟩ ∧
    requestRedo none initialGameState "combat" 0
      = ⟨initialGameState, some redoEmptyMsg, none⟩ := by
  have h := C7_emptyStack_error none initialGameState "combat" Page.combat 0
    (by decide) (by decide)
  exact ⟨h.1 rfl, h.2 rfl⟩

/-! ### Claim C9: role and page guards -/

/-- C9: on the monsters page, `save-history-entry`, `request-undo` and
`request-redo` from a non-dm connection (an unregistered connection
defaults to the `player` role) are complete no-ops — the state is
unchanged and nothing is emitted; a request naming an unknown page is
silently ignored the same way. -/
theorem C9_monstersPage_guards (mode : Option String) (s : GameState)
    (page : String) (desc : Option String) (now : Int) :
    (getRole mode ≠ "dm" →
      saveHistoryEntry mode s "monsters" desc now = ⟨s, none, none⟩ ∧
      requestUndo mode s "monsters" now = ⟨s, none, none⟩ ∧
      requestRedo mode s "monsters" now = ⟨s, none, none⟩) ∧
    getRole none = "player" ∧
    (parsePage page = none →
      saveHistoryEntry mode s page desc now = ⟨s, none, none⟩ ∧
      requestUndo mode s page now = ⟨s, none, none⟩ ∧
      requestRedo mode s page now = ⟨s, none, none⟩) := by
  refine ⟨fun hrole => ?_, rfl, fun hpage => ?_⟩
  · have hmon : parsePage "monsters" = some Page.monsters := by decide
    refine ⟨?_, ?_, ?_⟩
    · unfold saveHistoryEntry
      rw [hmon]
      dsimp only
      rw [if_pos ⟨rfl, hrole⟩]
    · unfold requestUndo
      rw [hmon]
      dsimp only
      rw [if_pos ⟨rfl, hrole⟩]
    · unfold requestRedo
      rw [hmon]
      dsimp only
      rw [if_pos ⟨rfl, hrole⟩]
  · refine ⟨?_, ?_, ?_⟩
    · unfold saveHistoryEntry
      rw [hpage]
    · unfold requestUndo
      rw [hpage]
    · unfold requestRedo
      rw [hpage]

/-- C9 witness: an unregistered connection cannot touch the monsters-page
history, and a bogus page name is ignored. -/
theorem C9_witness :
    saveHistoryEntry none initialGameState "monsters" none 0
      = ⟨initialGameState, none, none⟩ ∧
    requestUndo none initialGameState "bogus" 0
      = ⟨initialGameState, none, none⟩ := by
  have h := C9_monstersPage_guards none initialGameState "bogus" none 0
  exact ⟨(h.1 (by decide)).1, (h.2.2 (by decide)).2.1⟩

/-! ### Claim C6: a fresh history entry clears the redo stack -/

/-- C6: once past the guards, `save-history-entry` leaves the page's redo
stack empty whatever it held before, while a successful undo pops the
history stack and *pushes onto* (never clears) the redo stack, and a
successful redo does the symmetric thing. -/
theorem C6_record_clears_redo (mode : Option String) (s : GameState)
    (page : String) (p : Page) (desc : Option String) (now : Int)
    (hpage : parsePage page = some p)
    (hrole : p = Page.monsters → getRole mode = "dm") :
    (saveHistoryEntry mode s page desc now).state.redo.get p = [] ∧
    (∀ prev, (s.history.get p).getLast? = some prev →
      (requestUndo mode s page now).state.history.get p = (s.history.get p).dropLast ∧
      (requestUndo mode s page now).state.redo.get p
        = trimPush (s.redo.get p) (pageSnapshotEntry p s "Aktuální stav" now) ∧
      (requestUndo mode s page now).state.redo.get p ≠ []) ∧
    (∀ nxt, (s.redo.get p).getLast? = some nxt →
      (requestRedo mode s page now).state.redo.get p = (s.redo.get p).dropLast ∧
      (requestRedo mode s page now).state.history.get p
        = trimPush (s.history.get p) (pageSnapshotEntry p s "Stav před redo" now) ∧
      (requestRedo mode s page now).state.history.get p ≠ []) := by
  have hguard : ¬ (p = Page.monsters ∧ getRole mode ≠ "dm") := by
    rintro ⟨hm, hr⟩
    exact hr (hrole hm)
  refine ⟨?_, fun prev hprev => ?_, fun nxt hnxt => ?_⟩
  · unfold saveHistoryEntry
    rw [hpage]
    dsimp only
    rw [if_neg hguard]
    exact Stacks.get_set_same _ _ _
  · unfold requestUndo
    rw [hpage]
    dsimp only
    rw [if_neg hguard, hprev]
    dsimp only
    rw [restore_history, restore_redo]
    dsimp only
    rw [Stacks.get_set_same, Stacks.get_set_same]
    exact ⟨rfl, rfl, trimPush_ne_nil _ _⟩
  · unfold requestRedo
    rw [hpage]
    dsimp only
    rw [if_neg hguard, hnxt]
    dsimp only
    rw [restore_history, restore_redo]
    dsimp only
    rw [Stacks.get_set_same, Stacks.get_set_same]
    exact ⟨rfl, rfl, trimPush_ne_nil _ _⟩

def c6Entry : HistoryEntry :=
  { characters := [], combatState := none, description := "e", timestamp := 0 }

def c6State : GameState :=
  { initialGameState with
    history := ⟨[c6Entry], [], [], []⟩,
    redo := ⟨[c6Entry], [], [], []⟩ }

/-- C6 witness: recording on a state with a non-empty redo stack empties
it; undoing on the same state pops history and grows redo. -/
theorem C6_witness :
    (saveHistoryEntry none c6State "combat" none 0).state.redo.get Page.combat = [] ∧
    (requestUndo none c6State "combat" 0).state.history.get Page.combat = [] ∧
    (requestUndo none c6State "combat" 0).state.redo.get Page.combat ≠ [] := by
  have h := C6_record_clears_redo none c6State "combat" Page.combat none 0
    (by decide) (by decide)
  have hu := h.2.1 c6Entry (by decide)
  exact ⟨h.1, hu.1, hu.2.2⟩

/-! ### Claim C2: player-origin update gating -/

def c2Hidden : Character :=
  { id := "m1", type := "monster", revealedToPlayers := some false,
    fields := [("currentHp", Val.vint 9)] }

def c2Spoof : Character :=
  { id := "m1", type := "player", revealedToPlayers := none, fields := [] }

def c2State : GameState := { initialGameState with characters := [c2Hidden] }

/-- C2 counterexample: the per-entry visibility check is evaluated on the
*incoming payload*, not on the canonical record, so a player payload that
merely claims `type = "player"` but carries a hidden monster's id
overwrites that hidden monster in the canonical state. -/
theorem C2_counterexample :
    c2Hidden ∈ c2State.characters ∧
    c2Hidden.type = "monster" ∧ c2Hidden.revealedToPlayers = some false ∧
    getRole (some "player") ≠ "dm" ∧
    (updateState (some "player") c2State (some [c2Spoof]) none none).characters
      = [c2Spoof] ∧
    c2Hidden ∉
      (updateState (some "player") c2State (some [c2Spoof]) none none).characters := by
  decide

/-- C2 (amended): for restricted update-state requests the per-entry gate
tests the incoming entry itself: an entry failing the payload-side
visibility test is skipped while the rest of the payload still applies,
an entry passing it replaces the first canonical character with the same
id whatever that character's canonical visibility, and a provided
combatState is always accepted; update-character from a `player`
connection is blocked exactly when the payload itself is an unrevealed
monster. -/
theorem C2_playerUpdate_payloadGated (mode : Option String) (s : GameState)
    (u : Character) (rest : List Character) (cb : Option CombatState)
    (md : Option (List Val)) (hmode : getRole mode ≠ "dm") :
    (isVisibleToPlayers u = false →
      updateState mode s (some (u :: rest)) cb md
        = updateState mode s (some rest) cb md) ∧
    (isVisibleToPlayers u = true →
      (updateState mode s (some [u]) none none).characters
        = replaceById s.characters u) ∧
    (∀ cbv, (updateState mode s (some (u :: rest)) (some cbv) md).combatState
        = some cbv) ∧
    (getRole mode = "player" → u.type = "monster" →
      ¬ (u.revealedToPlayers = some true) → updateCharacter mode s u = s) := by
  refine ⟨fun hvis => ?_, fun hvis => ?_, fun cbv => ?_, fun hr ht hrev => ?_⟩
  · unfold updateState
    rw [if_neg hmode, if_neg hmode]
    simp [hvis]
  · unfold updateState
    rw [if_neg hmode]
    simp [hvis]
  · unfold updateState
    rw [if_neg hmode]
  · unfold updateCharacter
    rw [if_pos ⟨hr, ht, hrev⟩]

/-- C2 witness: a visible player entry replaces by id; an invisible entry
is skipped while the payload's combat state is still applied; a hidden
monster payload through update-character is blocked. -/
theorem C2_witness :
    (isVisibleToPlayers c2Spoof = true →
      (updateState (some "player") c2State (some [c2Spoof]) none none).characters
        = replaceById c2State.characters c2Spoof) ∧
    (isVisibleToPlayers c2Hidden = false →
      updateState (some "player") c2State (some [c2Hidden]) none none
        = updateState (some "player") c2State (some []) none none) ∧
    updateCharacter (some "player") c2State c2Hidden = c2State := by
  have h1 := C2_playerUpdate_payloadGated (some "player") c2State c2Spoof []
    none none (by decide)
  have h2 := C2_playerUpdate_payloadGated (some "player") c2State c2Hidden []
    none none (by decide)
  exact ⟨fun hv => h1.2.1 hv,
         fun hv => h2.1 hv,
         h2.2.2.2 (by decide) (by decide) (by decide)⟩

/-! ### Shape lemmas for the three history handlers -/

theorem saveHistoryEntry_noPage (mode : Option String) (s : GameState)
    (page : String) (desc : Option String) (now : Int)
    (hpage : parsePage page = none) :
    saveHistoryEntry mode s page desc now = ⟨s, none, none⟩ := by
  unfold saveHistoryEntry
  rw [hpage]

theorem saveHistoryEntry_blocked (mode : Option String) (s : GameState)
    (page : String) (p : Page) (desc : Option String) (now : Int)
    (hpage : parsePage page = some p)
    (hg : p = Page.monsters ∧ getRole mode ≠ "dm") :
    saveHistoryEntry mode s page desc now = ⟨s, none, none⟩ := by
  unfold saveHistoryEntry
  rw [hpage]
  dsimp only
  rw [if_pos hg]

theorem saveHistoryEntry_state (mode : Option String) (s : GameState)
    (page : String) (p : Page) (desc : Option String) (now : Int)
    (hpage : parsePage page = some p)
    (hg : ¬ (p = Page.monsters ∧ getRole mode ≠ "dm")) :
    (saveHistoryEntry mode s page desc now).state
      = { s with
          history := s.history.set p
            (trimPush (s.history.get p) (pageSnapshotEntry p s (desc.getD "") now)),
          redo := s.redo.set p [] } := by
  unfold saveHistoryEntry
  rw [hpage]
  dsimp only
  rw [if_neg hg]

theorem requestUndo_noPage (mode : Option String) (s : GameState) (page : String)
    (now : Int) (hpage : parsePage page = none) :
    requestUndo mode s page now = ⟨s, none, none⟩ := by
  unfold requestUndo
  rw [hpage]

theorem requestUndo_blocked (mode : Option String) (s : GameState) (page : String)
    (p : Page) (now : Int) (hpage : parsePage page = some p)
    (hg : p = Page.monsters ∧ getRole mode ≠ "dm") :
    requestUndo mode s page now = ⟨s, none, none⟩ := by
  unfold requestUndo
  rw [hpage]
  dsimp only
  rw [if_pos hg]

theorem requestUndo_state (mode : Option String) (s : GameState) (page : String)
    (p : Page) (prev : HistoryEntry) (now : Int)
    (hpage : parsePage page = some p)
    (hg : ¬ (p = Page.monsters ∧ getRole mode ≠ "dm"))
    (hprev : (s.history.get p).getLast? = some prev) :
    (requestUndo mode s page now).state
      = applyPageScopedRestore p prev.characters prev.combatState
          { s with
            redo := s.redo.set p
              (trimPush (s.redo.get p) (pageSnapshotEntry p s "Aktuální stav" now)),
            history := s.history.set p (s.history.get p).dropLast } := by
  unfold requestUndo
  rw [hpage]
  dsimp only
  rw [if_neg hg, hprev]

theorem requestRedo_noPage (mode : Option String) (s : GameState) (page : String)
    (now : Int) (hpage : parsePage page = none) :
    requestRedo mode s page now = ⟨s, none, none⟩ := by
  unfold requestRedo
  rw [hpage]

theorem requestRedo_blocked (mode : Option String) (s : GameState) (page : String)
    (p : Page) (now : Int) (hpage : parsePage page = some p)
    (hg : p = Page.monsters ∧ getRole mode ≠ "dm") :
    requestRedo mode s page now = ⟨s, none, none⟩ := by
  unfold requestRedo
  rw [hpage]
  dsimp only
  rw [if_pos hg]

theorem requestRedo_state (mode : Option String) (s : GameState) (page : String)
    (p : Page) (nxt : HistoryEntry) (now : Int)
    (hpage : parsePage page = some p)
    (hg : ¬ (p = Page.monsters ∧ getRole mode ≠ "dm"))
    (hnxt : (s.redo.get p).getLast? = some nxt) :
    (requestRedo mode s page now).state
      = applyPageScopedRestore p nxt.characters nxt.combatState
          { s with
            history := s.history.set p
              (trimPush (s.history.get p) (pageSnapshotEntry p s "Stav před redo" now)),
            redo := s.redo.set p (s.redo.get p).dropLast } := by
  unfold requestRedo
  rw [hpage]
  dsimp only
  rw [if_neg hg, hnxt]

/-! ### Claim C5: bounded history -/

def stacksBoundedB (st : Stacks) : Bool :=
  decide (st.combat.length ≤ MAX_HISTORY) &&
  decide (st.spells.length ≤ MAX_HISTORY) &&
  decide (st.monsters.length ≤ MAX_HISTORY) &&
  decide (st.inventory.length ≤ MAX_HISTORY)

/-- Both stack families of every page are within the bound. -/
def boundedB (s : GameState) : Bool :=
  stacksBoundedB s.history && stacksBoundedB s.redo

theorem stacksBoundedB_iff (st : Stacks) :
    stacksBoundedB st = true ↔ ∀ p, (st.get p).length ≤ MAX_HISTORY := by
  unfold stacksBoundedB
  simp only [Bool.and_eq_true, decide_eq_true_eq]
  constructor
  · rintro ⟨⟨⟨h1, h2⟩, h3⟩, h4⟩ p
    cases p <;> assumption
  · intro h
    exact ⟨⟨⟨h Page.combat, h Page.spells⟩, h Page.monsters⟩, h Page.inventory⟩

theorem stacksBoundedB_set (st : Stacks) (p : Page) (l : List HistoryEntry)
    (hst : stacksBoundedB st = true) (hl : l.length ≤ MAX_HISTORY) :
    stacksBoundedB (st.set p l) = true := by
  rw [stacksBoundedB_iff] at *
  intro q
  by_cases hq : q = p
  · subst hq; rw [Stacks.get_set_same]; exact hl
  · rw [Stacks.get_set_other _ _ _ _ hq]; exact hst q

theorem applyHistOp_preserves_bounded (s : GameState) (op : HistOp)
    (h : boundedB s = true) : boundedB (applyHistOp s op) = true := by
  obtain ⟨hh, hr⟩ := Bool.and_eq_true _ _ |>.mp h
  cases op with
  | record mode page desc now =>
      show boundedB (saveHistoryEntry mode s page desc now).state = true
      cases hp : parsePage page with
      | none => rw [saveHistoryEntry_noPage _ _ _ _ _ hp]; exact h
      | some p =>
          by_cases hg : p = Page.monsters ∧ getRole mode ≠ "dm"
          · rw [saveHistoryEntry_blocked _ _ _ _ _ _ hp hg]; exact h
          · rw [saveHistoryEntry_state _ _ _ _ _ _ hp hg]
            unfold boundedB
            dsimp only
            rw [Bool.and_eq_true]
            constructor
            · exact stacksBoundedB_set _ _ _ hh
                (trimPush_length_le _ _ ((stacksBoundedB_iff _).mp hh p))
            · exact stacksBoundedB_set _ _ _ hr (by simp)
  | undo mode page now =>
      show boundedB (requestUndo mode s page now).state = true
      cases hp : parsePage page with
      | none => rw [requestUndo_noPage _ _ _ _ hp]; exact h
      | some p =>
          by_cases hg : p = Page.monsters ∧ getRole mode ≠ "dm"
          · rw [requestUndo_blocked _ _ _ _ _ hp hg]; exact h
          · cases hl : (s.history.get p).getLast? with
            | none =>
                have : requestUndo mode s page now = ⟨s, some undoEmptyMsg, none⟩ := by
                  unfold requestUndo
                  rw [hp]
                  dsimp only
                  rw [if_neg hg, hl]
                rw [this]
                exact h
            | some prev =>
                rw [requestUndo_state _ _ _ _ _ _ hp hg hl]
                unfold boundedB
                rw [restore_history, restore_redo]
                dsimp only
                rw [Bool.and_eq_true]
                constructor
                · refine stacksBoundedB_set _ _ _ hh ?_
                  rw [List.length_dropLast]
                  have := (stacksBoundedB_iff _).mp hh p
                  omega
                · exact stacksBoundedB_set _ _ _ hr
                    (trimPush_length_le _ _ ((stacksBoundedB_iff _).mp hr p))
  | redoStep mode page now =>
      show boundedB (requestRedo mode s page now).state = true
      cases hp : parsePage page with
      | none => rw [requestRedo_noPage _ _ _ _ hp]; exact h
      | some p =>
          by_cases hg : p = Page.monsters ∧ getRole mode ≠ "dm"
          · rw [requestRedo_blocked _ _ _ _ _ hp hg]; exact h
          · cases hl : (s.redo.get p).getLast? with
            | none =>
                have : requestRedo mode s page now = ⟨s, some redoEmptyMsg, none⟩ := by
                  unfold requestRedo
                  rw [hp]
                  dsimp only
                  rw [if_neg hg, hl]
                rw [this]
                exact h
            | some nxt =>
                rw [requestRedo_state _ _ _ _ _ _ hp hg hl]
                unfold boundedB
                rw [restore_history, restore_redo]
                dsimp only
                rw [Bool.and_eq_true]
                constructor
                · exact stacksBoundedB_set _ _ _ hh
                    (trimPush_length_le _ _ ((stacksBoundedB_iff _).mp hh p))
                · refine stacksBoundedB_set _ _ _ hr ?_
                  rw [List.length_dropLast]
                  have := (stacksBoundedB_iff _).mp hr p
                  omega

theorem foldl_applyHistOp_bounded (ops : List HistOp) :
    ∀ s, boundedB s = true → boundedB (ops.foldl applyHistOp s) = true := by
  induction ops with
  | nil => exact fun s h => h
  | cons op tl ih =>
      intro s h
      exact ih _ (applyHistOp_preserves_bounded s op h)

theorem foldl_trimPush_eq (es : List HistoryEntry) :
    ∀ h0 : List HistoryEntry, h0.length ≤ MAX_HISTORY →
      es.foldl trimPush h0 = (h0 ++ es).drop (h0.length + es.length - MAX_HISTORY) := by
  induction es with
  | nil =>
      intro h0 hb
      rw [List.foldl_nil, List.length_nil, List.append_nil,
        Nat.add_zero, Nat.sub_eq_zero_of_le hb, List.drop_zero]
  | cons e tl ih =>
      intro h0 hb
      rw [List.foldl_cons]
      have hlen : (trimPush h0 e).length ≤ MAX_HISTORY := trimPush_length_le _ _ hb
      rw [ih _ hlen]
      have htp : trimPush h0 e = (h0 ++ [e]).drop (h0.length + 1 - MAX_HISTORY) :=
        trimPush_eq_drop _ _ hb
      rw [htp]
      have hk : h0.length + 1 - MAX_HISTORY ≤ (h0 ++ [e]).length := by
        simp only [List.length_append, List.length_singleton]
        omega
      rw [← List.drop_append_of_le_length hk, List.drop_drop, List.append_assoc,
        List.singleton_append]
      congr 1
      simp only [List.length_drop, List.length_append, List.length_singleton,
        List.length_cons, List.length_nil]
      unfold MAX_HISTORY at hb ⊢
      omega

theorem pageSnapshotEntry_congr (p : Page) (s1 s2 : GameState) (d : String)
    (t : Int) (h1 : s1.characters = s2.characters)
    (h2 : s1.combatState = s2.combatState) :
    pageSnapshotEntry p s1 d t = pageSnapshotEntry p s2 d t := by
  unfold pageSnapshotEntry extractPageSnapshot
  rw [h1, h2]

theorem recordSeq_get (mode : Option String) (page : String) (p : Page)
    (hpage : parsePage page = some p)
    (hg : ¬ (p = Page.monsters ∧ getRole mode ≠ "dm")) :
    ∀ (items : List (Option String × Int)) (s : GameState),
      (recordSeq mode page s items).characters = s.characters ∧
      (recordSeq mode page s items).combatState = s.combatState ∧
      (recordSeq mode page s items).history.get p
        = (items.map (fun it => pageSnapshotEntry p s (it.1.getD "") it.2)).foldl
            trimPush (s.history.get p) := by
  intro items
  induction items with
  | nil => exact fun s => ⟨rfl, rfl, rfl⟩
  | cons it tl ih =>
      intro s
      unfold recordSeq
      rw [List.foldl_cons, saveHistoryEntry_state mode s page p it.1 it.2 hpage hg]
      have hrec := ih
        { s with
          history := s.history.set p
            (trimPush (s.history.get p) (pageSnapshotEntry p s (it.1.getD "") it.2)),
          redo := s.redo.set p [] }
      unfold recordSeq at hrec
      obtain ⟨hc, hcb, hh⟩ := hrec
      refine ⟨hc, hcb, ?_⟩
      rw [hh]
      dsimp only
      rw [Stacks.get_set_same]
      have hfun :
          (fun it2 : Option String × Int =>
            pageSnapshotEntry p
              { s with
                history := s.history.set p
                  (trimPush (s.history.get p)
                    (pageSnapshotEntry p s (it.1.getD "") it.2)),
                redo := s.redo.set p [] } (it2.1.getD "") it2.2)
          = (fun it2 : Option String × Int =>
              pageSnapshotEntry p s (it2.1.getD "") it2.2) :=
        funext fun it2 => pageSnapshotEntry_congr _ _ _ _ _ rfl rfl
      rw [hfun, List.map_cons, List.foldl_cons]

/-- C5: starting from the initial state every sequence of record/undo/redo
operations keeps every page's history and redo stacks within `MAX_HISTORY`
(20) entries; a single operation preserves that bound on any bounded state;
and more than 20 guard-passing `save-history-entry` requests leave exactly
the 20 most recent entries, in recency order, the oldest evicted from the
front. -/
theorem C5_history_bounded :
    (∀ ops : List HistOp, boundedB (ops.foldl applyHistOp initialGameState) = true) ∧
    (∀ (s : GameState) (op : HistOp), boundedB s = true →
      boundedB (applyHistOp s op) = true) ∧
    (∀ (mode : Option String) (page : String) (p : Page) (s : GameState)
        (items : List (Option String × Int)),
      parsePage page = some p → (p = Page.monsters → getRole mode = "dm") →
      (s.history.get p).length ≤ MAX_HISTORY → MAX_HISTORY < items.length →
      (recordSeq mode page s items).history.get p
        = ((s.history.get p)
            ++ items.map (fun it => pageSnapshotEntry p s (it.1.getD "") it.2)).drop
            ((s.history.get p).length + items.length - MAX_HISTORY) ∧
      ((recordSeq mode page s items).history.get p).length = MAX_HISTORY) := by
  refine ⟨fun ops => foldl_applyHistOp_bounded ops initialGameState (by decide),
    fun s op h => applyHistOp_preserves_bounded s op h,
    fun mode page p s items hpage hrole hlen hN => ?_⟩
  have hg : ¬ (p = Page.monsters ∧ getRole mode ≠ "dm") := by
    rintro ⟨hm, hr⟩
    exact hr (hrole hm)
  have h3 := (recordSeq_get mode page p hpage hg items s).2.2
  rw [h3, foldl_trimPush_eq _ _ hlen]
  constructor
  · rw [List.length_map]
  · simp only [List.length_drop, List.length_append, List.length_map]
    unfold MAX_HISTORY at hlen hN ⊢
    omega

/-- C5 witness: a concrete one-op sequence stays bounded, a single record
op preserves the bound, and 21 records on the combat page leave exactly 20
entries. -/
theorem C5_witness :
    boundedB ([HistOp.record none "combat" none 0].foldl applyHistOp
      initialGameState) = true ∧
    boundedB (applyHistOp initialGameState (HistOp.record none "combat" none 0))
      = true ∧
    ((recordSeq none "combat" initialGameState
        (List.replicate 21 ((none : Option String), (0 : Int)))).history.get
        Page.combat).length = MAX_HISTORY := by
  refine ⟨C5_history_bounded.1 _, C5_history_bounded.2.1 _ _ (by decide), ?_⟩
  exact (C5_history_bounded.2.2 none "combat" Page.combat initialGameState
    (List.replicate 21 ((none : Option String), (0 : Int)))
    (by decide) (by decide) (by decide) (by decide)).2

/-! ### Claim C8: combat-page list reconciliation -/

theorem lastById_none_of_hasId_false (cs : List Character) (i : String)
    (h : hasId cs i = false) : lastById cs i = none := by
  apply lastById_eq_none
  intro c hc hci
  have : hasId cs i = true := (hasId_iff cs i).mpr ⟨c, hc, hci⟩
  rw [h] at this
  cases this

theorem restoreCharMerge_skip (p : Page) (a : List Character) (c : Character)
    (h : hasId a c.id = false) : restoreCharMerge p a c = c := by
  unfold restoreCharMerge
  rw [lastById_none_of_hasId_false _ _ h]

theorem restoreCharMerge_frame (p : Page) (a : List Character) (c : Character)
    (f : String) (hf : f ∉ PAGE_CHAR_FIELDS p) :
    lookupF (restoreCharMerge p a c).fields f = lookupF c.fields f := by
  unfold restoreCharMerge
  cases lastById a c.id with
  | none => rfl
  | some sc =>
      dsimp only
      split
      · rfl
      · exact lookupF_mergeCharFields_notMem _ _ _ _ hf

/-- C8: when `applyPageScopedRestore` runs for the combat page, the
resulting character list carries exactly the snapshot's ids (snapshot
characters missing from the current list are re-inserted, current
characters missing from the snapshot are dropped); for any other page the
restore is a per-character map that never adds or removes characters,
preserves id/type/revealedToPlayers and every field outside the page's
ownership list, and leaves characters absent from the snapshot entirely
unchanged. -/
theorem C8_restore_reconciliation (p : Page) (a : List Character)
    (b : Option CombatState) (s : GameState) :
    (p = Page.combat →
      (∀ c ∈ (applyPageScopedRestore p a b s).characters, hasId a c.id = true) ∧
      (∀ sc ∈ a, ∃ c ∈ (applyPageScopedRestore p a b s).characters, c.id = sc.id)) ∧
    (p ≠ Page.combat →
      (applyPageScopedRestore p a b s).characters
        = s.characters.map (restoreCharMerge p a) ∧
      (∀ c : Character,
        (restoreCharMerge p a c).id = c.id ∧
        (restoreCharMerge p a c).type = c.type ∧
        (restoreCharMerge p a c).revealedToPlayers = c.revealedToPlayers ∧
        (∀ f, f ∉ PAGE_CHAR_FIELDS p →
          lookupF (restoreCharMerge p a c).fields f = lookupF c.fields f) ∧
        (hasId a c.id = false → restoreCharMerge p a c = c))) := by
  constructor
  · rintro rfl
    rw [restore_characters_combat]
    constructor
    · intro c hc
      exact (List.mem_filter.mp hc).2
    · intro sc hsc
      by_cases hmem :
          hasId (s.characters.map (restoreCharMerge Page.combat a)) sc.id = true
      · obtain ⟨m, hm, hmid⟩ := (hasId_iff _ _).mp hmem
        refine ⟨m, ?_, hmid⟩
        apply List.mem_filter.mpr
        refine ⟨List.mem_append_left _ hm, ?_⟩
        rw [hmid]
        exact (hasId_iff _ _).mpr ⟨sc, hsc, rfl⟩
      · have hmem' : hasId (s.characters.map (restoreCharMerge Page.combat a)) sc.id
            = false := by
          cases hx : hasId (s.characters.map (restoreCharMerge Page.combat a)) sc.id
          · rfl
          · exact absurd hx hmem
        refine ⟨sc, ?_, rfl⟩
        apply List.mem_filter.mpr
        constructor
        · apply List.mem_append_right
          apply List.mem_filter.mpr
          exact ⟨hsc, by rw [hmem']; rfl⟩
        · exact (hasId_iff _ _).mpr ⟨sc, hsc, rfl⟩
  · intro hp
    refine ⟨restore_characters_other _ _ _ _ hp, fun c => ?_⟩
    exact ⟨restoreCharMerge_id _ _ _, restoreCharMerge_type _ _ _,
      restoreCharMerge_revealed _ _ _,
      fun f hf => restoreCharMerge_frame _ _ _ _ hf,
      fun h => restoreCharMerge_skip _ _ _ h⟩

def c8Snap : Character :=
  { id := "a", type := "player", revealedToPlayers := none,
    fields := [("currentHp", Val.vint 4)] }

def c8Other : Character :=
  { id := "b", type := "player", revealedToPlayers := none, fields := [] }

def c8State : GameState := { initialGameState with characters := [c8Other] }

/-- C8 witness: a combat restore over `c8State` keeps only snapshot ids
and re-inserts the missing snapshot character; a spells restore is the
per-character map. -/
theorem C8_witness :
    hasId [c8Snap] c8Snap.id = true ∧
    (applyPageScopedRestore Page.spells [c8Snap] none c8State).characters
      = c8State.characters.map (restoreCharMerge Page.spells [c8Snap]) := by
  have hcombat := (C8_restore_reconciliation Page.combat [c8Snap] none c8State).1 rfl
  have hspells := (C8_restore_reconciliation Page.spells [c8Snap] none c8State).2
    (by decide)
  exact ⟨hcombat.1 c8Snap (by decide), hspells.1⟩

/-! ### Claim C10: re-inserted characters carry only combat-scoped data -/

/-- C10: when a combat-page restore re-inserts a character that had been
removed, the re-inserted record is exactly the snapshot's scoped copy: it
keeps the original id and type, its `revealedToPlayers` flag is absent,
its combat-owned fields have the snapshotted values, and every field owned
by another page is absent. -/
theorem C10_reinserted_scoped_only (s sCur : GameState) (b : Option CombatState)
    (c : Character) (hc : c ∈ s.characters)
    (habsent : ∀ x ∈ sCur.characters, x.id ≠ c.id) :
    extractChar Page.combat c ∈
      (applyPageScopedRestore Page.combat (extractPageSnapshot Page.combat s) b
        sCur).characters ∧
    (extractChar Page.combat c).id = c.id ∧
    (extractChar Page.combat c).type = c.type ∧
    (extractChar Page.combat c).revealedToPlayers = none ∧
    (∀ f ∈ PAGE_CHAR_FIELDS Page.combat,
      lookupF (extractChar Page.combat c).fields f = lookupF c.fields f) ∧
    (∀ f, f ∉ PAGE_CHAR_FIELDS Page.combat →
      lookupF (extractChar Page.combat c).fields f = none) := by
  have hnotmon : ¬ (Page.combat = Page.monsters ∧ c.type ≠ "monster") := by
    rintro ⟨h1, _⟩
    cases h1
  refine ⟨?_, extractChar_id _ _, extractChar_type _ _, extractChar_revealed _ _,
    fun f hf => ?_, fun f hf => ?_⟩
  · rw [restore_characters_combat]
    have hsc : extractChar Page.combat c ∈ extractPageSnapshot Page.combat s :=
      List.mem_map.mpr ⟨c, hc, rfl⟩
    have hid : (extractChar Page.combat c).id = c.id := extractChar_id _ _
    have hcur : hasId sCur.characters c.id = false :=
      hasId_eq_false _ _ habsent
    have hmerged :
        hasId (sCur.characters.map
          (restoreCharMerge Page.combat (extractPageSnapshot Page.combat s)))
          (extractChar Page.combat c).id = false := by
      rw [hid, hasId_map_preserving _ _ _ (fun x => restoreCharMerge_id _ _ x)]
      exact hcur
    apply List.mem_filter.mpr
    constructor
    · apply List.mem_append_right
      apply List.mem_filter.mpr
      exact ⟨hsc, by rw [hmerged]; rfl⟩
    · exact (hasId_iff _ _).mpr ⟨extractChar Page.combat c, hsc, rfl⟩
  · rw [lookupF_extractChar _ _ hnotmon, if_pos hf]
  · rw [lookupF_extractChar _ _ hnotmon, if_neg hf]

def c10Removed : Character :=
  { id := "g", type := "monster", revealedToPlayers := some true,
    fields := [("currentHp", Val.vint 3), ("inventory", Val.vstr "coin")] }

def c10Before : GameState := { initialGameState with characters := [c10Removed] }

/-- C10 witness: restoring a combat snapshot of `c10Before` into the empty
current list re-inserts the scoped copy of the removed character, with the
reveal flag and the inventory field absent. -/
theorem C10_witness :
    extractChar Page.combat c10Removed ∈
      (applyPageScopedRestore Page.combat
        (extractPageSnapshot Page.combat c10Before) none initialGameState).characters ∧
    (extractChar Page.combat c10Removed).revealedToPlayers = none ∧
    lookupF (extractChar Page.combat c10Removed).fields "inventory" = none := by
  have h := C10_reinserted_scoped_only c10Before initialGameState none c10Removed
    (by decide) (by decide)
  exact ⟨h.1, h.2.2.2.1, h.2.2.2.2.2 "inventory" (by decide)⟩

/-! ### Claim C3: undo followed by redo -/

/-- Necessary condition of the undo/redo inverse claim, checked
computably: after `undo(P); redo(P)` every character of the original state
has a counterpart (by id) whose owned fields all equal their pre-undo
values (absence included). -/
def ownedFieldsRestoredB (mode : Option String) (page : String) (p : Page)
    (now now2 : Int) (s : GameState) : Bool :=
  let s4 := (requestRedo mode (requestUndo mode s page now).state page now2).state
  s.characters.all (fun c =>
    s4.characters.any (fun c2 =>
      c2.id == c.id &&
      (PAGE_CHAR_FIELDS p).all
        (fun f => lookupF c2.fields f == lookupF c.fields f)))

def c3Char : Character :=
  { id := "c1", type := "player", revealedToPlayers := none, fields := [] }

def c3Snap : Character :=
  { id := "c1", type := "player", revealedToPlayers := none,
    fields := [("spellSlots", Val.vint 3)] }

def c3State : GameState :=
  { initialGameState with
    characters := [c3Char],
    history := ⟨[], [{ characters := [c3Snap], combatState := none,
                       description := "slots", timestamp := 0 }], [], []⟩ }

/-- C3 counterexample: on the spells page, an undo that writes
`spellSlots` onto a character that did not define the field before is not
reverted by the immediately following redo — the pre-undo snapshot does
not contain the absent field, so the merged value survives the pair and
the claimed bit-for-bit restoration fails. -/
theorem C3_counterexample :
    c3State.history.get Page.spells ≠ [] ∧
    ownedFieldsRestoredB none "spells" Page.spells 0 1 c3State = false := by
  decide

theorem restoreCharMerge_eq_merge (p : Page) (a : List Character) (x sc : Character)
    (hlast : lastById a x.id = some sc)
    (hguard : ¬ (p = Page.monsters ∧ x.type ≠ "monster")) :
    restoreCharMerge p a x = mergeCharFields (PAGE_CHAR_FIELDS p) sc x := by
  unfold restoreCharMerge
  rw [hlast]
  dsimp only
  rw [if_neg hguard]

theorem restoreCharMerge_monsters_skip (a : List Character) (c : Character)
    (h : c.type ≠ "monster") : restoreCharMerge Page.monsters a c = c := by
  unfold restoreCharMerge
  cases lastById a c.id with
  | none => rfl
  | some sc =>
      dsimp only
      rw [if_pos ⟨rfl, h⟩]

/-- After merging the popped snapshot and then re-merging the freshly
extracted pre-undo snapshot, a character keeps its identity, regains every
owned field it previously *defined*, and keeps all fields outside the
page's ownership list untouched. -/
theorem undoRedo_char_restores (p : Page) (s : GameState)
    (prevChars : List Character) (c : Character) (hc : c ∈ s.characters)
    (hnd : (s.characters.map (fun x => x.id)).Nodup) :
    (restoreCharMerge p (s.characters.map (extractChar p))
      (restoreCharMerge p prevChars c)).id = c.id ∧
    (restoreCharMerge p (s.characters.map (extractChar p))
      (restoreCharMerge p prevChars c)).type = c.type ∧
    (restoreCharMerge p (s.characters.map (extractChar p))
      (restoreCharMerge p prevChars c)).revealedToPlayers = c.revealedToPlayers ∧
    (∀ f ∈ PAGE_CHAR_FIELDS p, (lookupF c.fields f).isSome →
      lookupF (restoreCharMerge p (s.characters.map (extractChar p))
        (restoreCharMerge p prevChars c)).fields f = lookupF c.fields f) ∧
    (∀ f, f ∉ PAGE_CHAR_FIELDS p →
      lookupF (restoreCharMerge p (s.characters.map (extractChar p))
        (restoreCharMerge p prevChars c)).fields f = lookupF c.fields f) := by
  have hx_id : (restoreCharMerge p prevChars c).id = c.id :=
    restoreCharMerge_id _ _ _
  have hx_type : (restoreCharMerge p prevChars c).type = c.type :=
    restoreCharMerge_type _ _ _
  have hlast :
      lastById (s.characters.map (extractChar p))
        (restoreCharMerge p prevChars c).id = some (extractChar p c) := by
    rw [hx_id]
    exact lastById_map_of_nodup (extractChar p) s.characters c
      (fun y => extractChar_id p y) hnd hc
  by_cases hmon : p = Page.monsters ∧ c.type ≠ "monster"
  · have hxc : restoreCharMerge p prevChars c = c := by
      rw [hmon.1]
      exact restoreCharMerge_monsters_skip _ _ hmon.2
    have houter : restoreCharMerge p (s.characters.map (extractChar p))
        (restoreCharMerge p prevChars c) = c := by
      rw [hxc, hmon.1]
      exact restoreCharMerge_monsters_skip _ _ hmon.2
    rw [houter]
    exact ⟨rfl, rfl, rfl, fun f _ _ => rfl, fun f _ => rfl⟩
  · have houter : restoreCharMerge p (s.characters.map (extractChar p))
        (restoreCharMerge p prevChars c)
        = mergeCharFields (PAGE_CHAR_FIELDS p) (extractChar p c)
            (restoreCharMerge p prevChars c) :=
      restoreCharMerge_eq_merge p _ _ _ hlast (by
        rintro ⟨h1, h2⟩
        rw [hx_type] at h2
        exact hmon ⟨h1, h2⟩)
    have hmonc : ¬ (p = Page.monsters ∧ c.type ≠ "monster") := hmon
    rw [houter]
    refine ⟨?_, ?_, ?_, fun f hf hdef => ?_, fun f hf => ?_⟩
    · rw [mergeCharFields_id, hx_id]
    · rw [mergeCharFields_type, hx_type]
    · rw [mergeCharFields_revealed, restoreCharMerge_revealed]
    · obtain ⟨v, hv⟩ := Option.isSome_iff_exists.mp hdef
      have hev : lookupF (extractChar p c).fields f = some v := by
        rw [lookupF_extractChar _ _ hmonc, if_pos hf]
        exact hv
      rw [lookupF_mergeCharFields_mem _ _ _ _ _ hf hev, hv]
    · rw [lookupF_mergeCharFields_notMem _ _ _ _ hf]
      exact restoreCharMerge_frame _ _ _ _ hf

theorem restore_characters_other_of (p : Page) (a : List Character)
    (b : Option CombatState) (st : GameState) (cs : List Character)
    (hst : st.characters = cs) (hp : p ≠ Page.combat) :
    (applyPageScopedRestore p a b st).characters
      = cs.map (restoreCharMerge p a) := by
  rw [restore_characters_other _ _ _ _ hp, hst]

theorem restore_characters_combat_of (a : List Character) (b : Option CombatState)
    (st : GameState) (cs : List Character) (hst : st.characters = cs) :
    (applyPageScopedRestore Page.combat a b st).characters
      = ((cs.map (restoreCharMerge Page.combat a))
          ++ a.filter (fun sc =>
              !(hasId (cs.map (restoreCharMerge Page.combat a)) sc.id))).filter
          (fun c => hasId a c.id) := by
  rw [restore_characters_combat, hst]

/-- C3 (amended): once past the guards, with a non-empty history stack and
unique character ids, `undo(P)` followed immediately by `redo(P)` leaves
the combat state exactly as before the pair, and every original character
has a counterpart with its id and type whose `P`-owned fields that were
*defined* before the undo carry their exact pre-undo values; fields owned
by other pages (and the reveal flag) are unchanged for every character
except, on the combat page, those absent from the popped snapshot, which
are re-inserted carrying only combat-scoped data. -/
theorem C3_undoRedo_scoped_inverse (mode : Option String) (s : GameState)
    (page : String) (p : Page) (prev : HistoryEntry) (now now2 : Int)
    (hpage : parsePage page = some p)
    (hrole : p = Page.monsters → getRole mode = "dm")
    (hprev : (s.history.get p).getLast? = some prev)
    (hnd : (s.characters.map (fun x => x.id)).Nodup) :
    (requestRedo mode (requestUndo mode s page now).state page now2).state.combatState
      = s.combatState ∧
    (∀ c ∈ s.characters,
      ∃ c2 ∈ (requestRedo mode (requestUndo mode s page now).state page
          now2).state.characters,
        c2.id = c.id ∧ c2.type = c.type ∧
        (∀ f ∈ PAGE_CHAR_FIELDS p, (lookupF c.fields f).isSome →
          lookupF c2.fields f = lookupF c.fields f) ∧
        ((p = Page.combat → hasId prev.characters c.id = true) →
          c2.revealedToPlayers = c.revealedToPlayers ∧
          (∀ f, f ∉ PAGE_CHAR_FIELDS p →
            lookupF c2.fields f = lookupF c.fields f))) := by
  have hg : ¬ (p = Page.monsters ∧ getRole mode ≠ "dm") := by
    rintro ⟨hm, hr⟩
    exact hr (hrole hm)
  have hs2 := requestUndo_state mode s page p prev now hpage hg hprev
  have hs2redo : ((requestUndo mode s page now).state.redo.get p).getLast?
      = some (pageSnapshotEntry p s "Aktuální stav" now) := by
    rw [hs2, restore_redo]
    dsimp only
    rw [Stacks.get_set_same]
    exact trimPush_getLast? _ _
  have hs4 := requestRedo_state mode (requestUndo mode s page now).state page p
    (pageSnapshotEntry p s "Aktuální stav" now) now2 hpage hg hs2redo
  have hS0chars : (pageSnapshotEntry p s "Aktuální stav" now).characters
      = s.characters.map (extractChar p) := rfl
  constructor
  · by_cases hpc : p = Page.combat
    · subst hpc
      rw [hs4, restore_combatState_combat]
      simp [pageSnapshotEntry]
    · rw [hs4, restore_combatState_other _ _ _ _ hpc]
      show (requestUndo mode s page now).state.combatState = s.combatState
      rw [hs2, restore_combatState_other _ _ _ _ hpc]
  · intro c hc
    by_cases hpc : p = Page.combat
    · subst hpc
      have hu : (requestUndo mode s page now).state.characters
          = ((s.characters.map (restoreCharMerge Page.combat prev.characters))
              ++ prev.characters.filter (fun sc =>
                  !(hasId (s.characters.map
                      (restoreCharMerge Page.combat prev.characters)) sc.id))).filter
              (fun y => hasId prev.characters y.id) := by
        rw [hs2]
        exact restore_characters_combat_of _ _ _ _ rfl
      have hr4 : (requestRedo mode (requestUndo mode s page now).state page
            now2).state.characters
          = (((requestUndo mode s page now).state.characters.map
                (restoreCharMerge Page.combat (s.characters.map (extractChar Page.combat))))
              ++ (s.characters.map (extractChar Page.combat)).filter (fun sc =>
                  !(hasId ((requestUndo mode s page now).state.characters.map
                      (restoreCharMerge Page.combat
                        (s.characters.map (extractChar Page.combat)))) sc.id))).filter
              (fun y => hasId (s.characters.map (extractChar Page.combat)) y.id) := by
        rw [hs4, hS0chars]
        exact restore_characters_combat_of _ _ _ _ rfl
      cases hpres : hasId prev.characters c.id with
      | true =>
          have hmem_u : restoreCharMerge Page.combat prev.characters c
              ∈ (requestUndo mode s page now).state.characters := by
            rw [hu]
            apply List.mem_filter.mpr
            refine ⟨List.mem_append_left _ (List.mem_map.mpr ⟨c, hc, rfl⟩), ?_⟩
            rw [restoreCharMerge_id]
            exact hpres
          have hc2id : (restoreCharMerge Page.combat
              (s.characters.map (extractChar Page.combat))
              (restoreCharMerge Page.combat prev.characters c)).id = c.id := by
            rw [restoreCharMerge_id, restoreCharMerge_id]
          have hmem : restoreCharMerge Page.combat
              (s.characters.map (extractChar Page.combat))
              (restoreCharMerge Page.combat prev.characters c)
              ∈ (requestRedo mode (requestUndo mode s page now).state page
                  now2).state.characters := by
            rw [hr4]
            apply List.mem_filter.mpr
            refine ⟨List.mem_append_left _ (List.mem_map.mpr ⟨_, hmem_u, rfl⟩), ?_⟩
            rw [hc2id,
              hasId_map_preserving _ _ _ (fun y => extractChar_id Page.combat y)]
            exact (hasId_iff _ _).mpr ⟨c, hc, rfl⟩
          have hch := undoRedo_char_restores Page.combat s prev.characters c hc hnd
          exact ⟨_, hmem, hch.1, hch.2.1, hch.2.2.2.1,
            fun _ => ⟨hch.2.2.1, hch.2.2.2.2⟩⟩
      | false =>
          have hu_all : ∀ y ∈ (requestUndo mode s page now).state.characters,
              hasId prev.characters y.id = true := by
            rw [hu]
            intro y hy
            exact (List.mem_filter.mp hy).2
          have hu_no_c : hasId (requestUndo mode s page now).state.characters c.id
              = false := by
            cases hb : hasId (requestUndo mode s page now).state.characters c.id with
            | false => rfl
            | true =>
                obtain ⟨y, hy, hyid⟩ := (hasId_iff _ _).mp hb
                have hpy := hu_all y hy
                rw [hyid, hpres] at hpy
                cases hpy
          have hmerged_no : hasId ((requestUndo mode s page now).state.characters.map
              (restoreCharMerge Page.combat (s.characters.map (extractChar Page.combat))))
              c.id = false := by
            rw [hasId_map_preserving _ _ _ (fun y => restoreCharMerge_id _ _ y)]
            exact hu_no_c
          have hmem : extractChar Page.combat c
              ∈ (requestRedo mode (requestUndo mode s page now).state page
                  now2).state.characters := by
            rw [hr4]
            apply List.mem_filter.mpr
            constructor
            · apply List.mem_append_right
              apply List.mem_filter.mpr
              refine ⟨List.mem_map.mpr ⟨c, hc, rfl⟩, ?_⟩
              rw [extractChar_id, hmerged_no]
              rfl
            · rw [extractChar_id,
                hasId_map_preserving _ _ _ (fun y => extractChar_id Page.combat y)]
              exact (hasId_iff _ _).mpr ⟨c, hc, rfl⟩
          have hnotmon : ¬ (Page.combat = Page.monsters ∧ c.type ≠ "monster") := by
            rintro ⟨h1, _⟩
            cases h1
          refine ⟨extractChar Page.combat c, hmem, extractChar_id _ _,
            extractChar_type _ _, fun f hf _ => ?_, fun hcond => ?_⟩
          · rw [lookupF_extractChar _ _ hnotmon, if_pos hf]
          · exact absurd (hcond rfl) (by decide)
    · have hu : (requestUndo mode s page now).state.characters
          = s.characters.map (restoreCharMerge p prev.characters) := by
        rw [hs2]
        exact restore_characters_other_of _ _ _ _ _ rfl hpc
      have hr4 : (requestRedo mode (requestUndo mode s page now).state page
            now2).state.characters
          = (requestUndo mode s page now).state.characters.map
              (restoreCharMerge p (s.characters.map (extractChar p))) := by
        rw [hs4, hS0chars]
        exact restore_characters_other_of _ _ _ _ _ rfl hpc
      have hmem : restoreCharMerge p (s.characters.map (extractChar p))
          (restoreCharMerge p prev.characters c)
          ∈ (requestRedo mode (requestUndo mode s page now).state page
              now2).state.characters := by
        rw [hr4, hu]
        exact List.mem_map.mpr ⟨_, List.mem_map.mpr ⟨c, hc, rfl⟩, rfl⟩
      have hch := undoRedo_char_restores p s prev.characters c hc hnd
      exact ⟨_, hmem, hch.1, hch.2.1, hch.2.2.2.1,
        fun _ => ⟨hch.2.2.1, hch.2.2.2.2⟩⟩

/-- C3 witness: the combat-state component of the pair at a concrete
spells-page instance. -/
theorem C3_witness :
    (requestRedo none (requestUndo none c3State "spells" 0).state "spells"
      1).state.combatState = c3State.combatState := by
  exact (C3_undoRedo_scoped_inverse none c3State "spells" Page.spells
    { characters := [c3Snap], combatState := none, description := "slots",
      timestamp := 0 } 0 1 (by decide) (by decide) (by decide) (by decide)).1

end DndTracker
